import Mathlib

/-!
The two point-cloud adapters of pc_backend.cpp

A shallow embedding of `src/dianyun/cse/pointcloud_project/src/pc_backend.cpp`.

* Coordinates are values of an arbitrary type `F` (the source only copies
  `float`s, it never computes with them), so every statement also covers NaN
  and the infinities.
* A numpy array of rank 2 is its shape and its row-major contents; an access
  `buf(i, j)` through an `unchecked` proxy carries no bounds check in the
  source, so an access outside the shape is recorded as a `Fault`
  (the behaviour of the C++ program is undefined from there on).
* `pcl::io::loadPLYFile` and `pcl::io::savePLYFileASCII` belong to the PCL
  library; they are parameters (`PlyEnv`) acting on an abstract file system.
* The two `for` loops are recursive functions whose first argument counts the
  iterations that are left (`N - i`).
-/

namespace PcBackend

/-! ## Data model -/

/-- The PCL point type `pcl::PointXYZ`: three coordinates. -/
structure PointXYZ (F : Type) where
  x : F
  y : F
  z : F
deriving DecidableEq, Repr

/-- The PCL point type `pcl::PointXYZRGB`: three coordinates and three colour
bytes (values below 256). -/
structure PointXYZRGB (F : Type) where
  x : F
  y : F
  z : F
  r : Nat
  g : Nat
  b : Nat
deriving DecidableEq, Repr

/-- The PCL container `pcl::PointCloud<P>`: the point vector and the header
fields the source assigns.  In `pcl/point_cloud.h` the fields `width` and
`height` are `std::uint32_t`, so the values stored here are below `2 ^ 32`. -/
structure PointCloud (P : Type) where
  points : List P
  width : Nat
  height : Nat
  is_dense : Bool
deriving DecidableEq, Repr

/-- A rank-2 numpy array (`py::array_t<float>` seen through `unchecked<2>` or
`mutable_unchecked<2>`): `shape0` rows, `shape1` columns, contents in row-major
order. -/
structure NdArray2 (F : Type) where
  shape0 : Nat
  shape1 : Nat
  data : List F
deriving DecidableEq, Repr

/-- The buffer holds exactly `shape0 * shape1` elements. -/
def NdArray2.WellFormed {F : Type} (a : NdArray2 F) : Prop :=
  a.data.length = a.shape0 * a.shape1

instance {F : Type} (a : NdArray2 F) : Decidable a.WellFormed := by
  unfold NdArray2.WellFormed
  infer_instance

/-- Read `buf(i, j)`.  The proxy does not check the indices; `none` stands for
an access outside the array. -/
def NdArray2.get {F : Type} (a : NdArray2 F) (i j : Nat) : Option F :=
  if i < a.shape0 ∧ j < a.shape1 then a.data[i * a.shape1 + j]? else none

/-- Write `buf(i, j) = v`.  The proxy does not check the indices; `none` stands
for an access outside the array. -/
def NdArray2.set {F : Type} (a : NdArray2 F) (i j : Nat) (v : F) : Option (NdArray2 F) :=
  if i < a.shape0 ∧ j < a.shape1 ∧ i * a.shape1 + j < a.data.length then
    some { a with data := a.data.set (i * a.shape1 + j) v }
  else none

/-- An access outside a buffer.  The source performs every access unchecked, so
the C++ program has undefined behaviour at such a point; the model stops and
reports where. -/
inductive Fault where
  | xyzOutOfBounds (i j : Nat)
  | labelOutOfBounds (i : Nat)
  | pointOutOfBounds (i : Nat)
  | arrOutOfBounds (i j : Nat)
deriving DecidableEq, Repr

/-- What the caller of one of the two functions observes. -/
inductive Outcome (α : Type) where
  /-- normal return -/
  | returned (a : α)
  /-- a `std::runtime_error` with the given message left the function -/
  | threw (msg : String)
  /-- an unchecked access left its buffer -/
  | undefined (f : Fault)
deriving DecidableEq, Repr

/-- The PCL entry points used by the source, over a file system of type `FS`,
and the contents of freshly allocated array memory.

* `loadPLYFile fs path` is the `int` returned by `pcl::io::loadPLYFile(path, *cloud)`
  together with `*cloud` after the call (it was empty before the call);
* `savePLYFileASCII fs path cloud` is the `int` returned by
  `pcl::io::savePLYFileASCII(path, *cloud)` together with the file system after
  the call;
* `uninit k` is what cell `k` of a newly constructed `py::array_t<float>`
  holds before it is written. -/
structure PlyEnv (F FS : Type) where
  loadPLYFile : FS → String → Int × PointCloud (PointXYZ F)
  savePLYFileASCII : FS → String → PointCloud (PointXYZRGB F) → Int × FS
  uninit : Nat → F

/-! ## load_pointcloud_cpp (lines 10-28) -/

/-- The loop of lines 21-25, with `k` iterations left and loop variable `i`:
row `i` of the array receives the coordinates of `cloud->points[i]`. -/
def loadLoop {F : Type} (pts : List (PointXYZ F)) :
    Nat → Nat → NdArray2 F → Except Fault (NdArray2 F)
  | 0, _, buf => .ok buf
  | k + 1, i, buf =>
    match pts[i]? with
    | none => .error (.pointOutOfBounds i)
    | some p =>
      match buf.set i 0 p.x with
      | none => .error (.arrOutOfBounds i 0)
      | some b0 =>
        match b0.set i 1 p.y with
        | none => .error (.arrOutOfBounds i 1)
        | some b1 =>
          match b1.set i 2 p.z with
          | none => .error (.arrOutOfBounds i 2)
          | some b2 => loadLoop pts k (i + 1) b2

/-- The function `load_pointcloud_cpp`: call the parser, throw when it returns
a negative code, otherwise allocate an `N x 3` array and fill it row by row. -/
def load_pointcloud_cpp {F FS : Type} (env : PlyEnv F FS) (fs : FS) (path : String) :
    Outcome (NdArray2 F) :=
  let res := env.loadPLYFile fs path
  if res.1 < 0 then
    .threw ("Failed to load PLY: " ++ path)
  else
    let N := res.2.points.length
    let arr : NdArray2 F := { shape0 := N, shape1 := 3, data := (List.range (N * 3)).map env.uninit }
    match loadLoop res.2.points N 0 arr with
    | .ok a => .returned a
    | .error f => .undefined f

/-! ## save_colored_ply_cpp (lines 31-66) -/

/-- The colour mapping of lines 53-56, as `(r, g, b)`. -/
def labelColour (cls : Int) : Nat × Nat × Nat :=
  if cls = 0 then (128, 128, 128)
  else if cls = 1 then (0, 0, 255)
  else if cls = 2 then (255, 0, 0)
  else (0, 255, 0)

/-- Lines 49-56: the point built from three coordinates and a label. -/
def mkPoint {F : Type} (x y z : F) (cls : Int) : PointXYZRGB F :=
  { x := x, y := y, z := z,
    r := (labelColour cls).1, g := (labelColour cls).2.1, b := (labelColour cls).2.2 }

/-- A default-constructed `pcl::PointXYZRGB`, the filler of `points.resize(N)`. -/
def defaultPoint {F : Type} [Zero F] : PointXYZRGB F :=
  { x := 0, y := 0, z := 0, r := 0, g := 0, b := 0 }

/-- The loop of lines 43-59, with `k` iterations left and loop variable `i`.
The state is the point vector and the list of indices at which `lab_buf` has
been read so far (oldest first); the list is returned also when an access
faults. -/
def saveLoop {F : Type} (xyz : NdArray2 F) (labels : List Int) :
    Nat → Nat → List (PointXYZRGB F) → List Nat → List Nat × Except Fault (List (PointXYZRGB F))
  | 0, _, pts, reads => (reads, .ok pts)
  | k + 1, i, pts, reads =>
    match xyz.get i 0 with
    | none => (reads, .error (.xyzOutOfBounds i 0))
    | some x =>
      match xyz.get i 1 with
      | none => (reads, .error (.xyzOutOfBounds i 1))
      | some y =>
        match xyz.get i 2 with
        | none => (reads, .error (.xyzOutOfBounds i 2))
        | some z =>
          match labels[i]? with
          | none => (reads ++ [i], .error (.labelOutOfBounds i))
          | some cls => saveLoop xyz labels k (i + 1) (pts.set i (mkPoint x y z cls)) (reads ++ [i])

/-- One run of `save_colored_ply_cpp`, as seen from outside. -/
structure SaveRun (F FS : Type) where
  /-- indices at which the label buffer was read, in order -/
  labelReads : List Nat
  /-- the calls of `savePLYFileASCII`: path and cloud -/
  writerCalls : List (String × PointCloud (PointXYZRGB F))
  /-- what each of those calls returned -/
  writerCodes : List Int
  /-- the file system afterwards -/
  fs : FS
  /-- what the caller observes (the function returns `void`) -/
  outcome : Outcome Unit

/-- The function `save_colored_ply_cpp`: `N` is the number of rows of `xyz`;
the cloud is resized to `N` points, filled by the loop, given the header
`width = N` (stored in 32 bits), `height = 1`, `is_dense = false`, and passed
to the writer, whose return value is dropped. -/
def save_colored_ply_cpp {F FS : Type} [Zero F] (env : PlyEnv F FS) (fs : FS) (path : String)
    (xyz : NdArray2 F) (labels : List Int) : SaveRun F FS :=
  let N := xyz.shape0
  match saveLoop xyz labels N 0 (List.replicate N defaultPoint) [] with
  | (reads, .error f) =>
    { labelReads := reads, writerCalls := [], writerCodes := [], fs := fs, outcome := .undefined f }
  | (reads, .ok pts) =>
    let cloud : PointCloud (PointXYZRGB F) :=
      { points := pts, width := N % 2 ^ 32, height := 1, is_dense := false }
    let res := env.savePLYFileASCII fs path cloud
    { labelReads := reads, writerCalls := [(path, cloud)], writerCodes := [res.1], fs := res.2,
      outcome := .returned () }

/-! ## An in-memory file system for concrete runs -/

/-- A file system that maps a path to the cloud last written there. -/
abbrev MemFS : Type := List (String × PointCloud (PointXYZRGB Int))

/-- Reader of the in-memory file system: code `0` and the stored coordinates
when the path exists, code `-1` and an empty cloud otherwise. -/
def memLoad (fs : MemFS) (path : String) : Int × PointCloud (PointXYZ Int) :=
  match fs.lookup path with
  | some c =>
    (0, { points := c.points.map (fun p => { x := p.x, y := p.y, z := p.z }),
          width := c.width, height := c.height, is_dense := c.is_dense })
  | none => (-1, { points := [], width := 0, height := 0, is_dense := true })

/-- Writer of the in-memory file system: stores the cloud, returns `0`. -/
def memSave (fs : MemFS) (path : String) (c : PointCloud (PointXYZRGB Int)) : Int × MemFS :=
  (0, (path, c) :: fs)

/-- The in-memory reader and writer. -/
def memEnv : PlyEnv Int MemFS :=
  { loadPLYFile := memLoad, savePLYFileASCII := memSave, uninit := fun _ => 7 }

/-- A writer that always fails with code `-1` and leaves the file system
untouched (as for a directory without write permission). -/
def failEnv : PlyEnv Int MemFS :=
  { loadPLYFile := memLoad, savePLYFileASCII := fun fs _ _ => (-1, fs), uninit := fun _ => 7 }

/-- The positions `[[0,0,0],[1,1,1]]`. -/
def xyz2 : NdArray2 Int := { shape0 := 2, shape1 := 3, data := [0, 0, 0, 1, 1, 1] }

/-- Three positions. -/
def xyz3 : NdArray2 Int := { shape0 := 3, shape1 := 3, data := [0, 0, 0, 1, 1, 1, 2, 2, 2] }

/-! ## Specification helpers -/

/-- The coordinates of a point list, three per point, in order. -/
def coordsOf {F : Type} : List (PointXYZ F) → List F
  | [] => []
  | p :: ps => p.x :: p.y :: p.z :: coordsOf ps

/-- The coloured points obtained by pairing consecutive coordinate triples with
consecutive labels. -/
def colouredRows {F : Type} : List F → List Int → List (PointXYZRGB F)
  | x :: y :: z :: rest, c :: cs => mkPoint x y z c :: colouredRows rest cs
  | _, _ => []

/-- Forget the colour of a point. -/
def PointXYZRGB.toXYZ {F : Type} (p : PointXYZRGB F) : PointXYZ F :=
  { x := p.x, y := p.y, z := p.z }

/-- The reader returns, for a file just written from a cloud, a non-negative
code and the coordinates of that cloud's points in order. -/
def PlyEnv.Faithful {F FS : Type} (env : PlyEnv F FS) : Prop :=
  ∀ (fs : FS) (path : String) (cloud : PointCloud (PointXYZRGB F)),
    0 ≤ (env.loadPLYFile (env.savePLYFileASCII fs path cloud).2 path).1 ∧
      (env.loadPLYFile (env.savePLYFileASCII fs path cloud).2 path).2.points =
        cloud.points.map PointXYZRGB.toXYZ

/-- A position array of `2 ^ 32` rows, all coordinates zero. -/
def xyzHuge : NdArray2 Int :=
  { shape0 := 2 ^ 32, shape1 := 3, data := List.replicate (2 ^ 32 * 3) 0 }

/-- As many labels as `xyzHuge` has rows, all zero. -/
def labelsHuge : List Int := List.replicate (2 ^ 32) 0

/-! ## Lemmas on lists -/

theorem set3_take {α : Type} (x y z : α) :
    ∀ (n : Nat) (l : List α), n + 3 ≤ l.length →
      (((l.set n x).set (n + 1) y).set (n + 2) z).take (n + 3) = l.take n ++ [x, y, z]
  | 0, l, h => by
    match l, h with
    | a :: b :: c :: rest, _ => simp
  | n + 1, l, h => by
    match l, h with
    | a :: rest, h =>
      have h2 : n + 3 ≤ rest.length := by simpa using h
      have ih := set3_take x y z n rest h2
      simpa using ih

theorem coordsOf_length {F : Type} (pts : List (PointXYZ F)) :
    (coordsOf pts).length = pts.length * 3 := by
  induction pts with
  | nil => rfl
  | cons p ps ih => simp [coordsOf, ih, Nat.succ_mul]

theorem coordsOf_getElem {F : Type} :
    ∀ (pts : List (PointXYZ F)) (i : Nat) (p : PointXYZ F), pts[i]? = some p →
      (coordsOf pts)[i * 3]? = some p.x ∧ (coordsOf pts)[i * 3 + 1]? = some p.y ∧
        (coordsOf pts)[i * 3 + 2]? = some p.z
  | [], i, p, h => by simp at h
  | q :: qs, 0, p, h => by
    simp at h
    subst h
    simp [coordsOf]
  | q :: qs, i + 1, p, h => by
    have h2 : qs[i]? = some p := by simpa using h
    have ih := coordsOf_getElem qs i p h2
    have e : (i + 1) * 3 = i * 3 + 3 := by ring
    simpa [coordsOf, e] using ih

/-! ## Lemmas on the loader -/

theorem NdArray2.set_mk {F : Type} (n : Nat) (data : List F) (i j : Nat) (v : F)
    (hi : i < n) (hj : j < 3) (h : i * 3 + j < data.length) :
    NdArray2.set ⟨n, 3, data⟩ i j v = some ⟨n, 3, data.set (i * 3 + j) v⟩ := by
  simp [NdArray2.set, hi, hj, h]

theorem loadLoop_spec {F : Type} (pts : List (PointXYZ F)) :
    ∀ (k i : Nat) (data : List F), i + k = pts.length → data.length = pts.length * 3 →
      loadLoop pts k i { shape0 := pts.length, shape1 := 3, data := data } =
        .ok { shape0 := pts.length, shape1 := 3,
              data := data.take (i * 3) ++ coordsOf (pts.drop i) }
  | 0, i, data, hik, hlen => by
    have hi : i = pts.length := by omega
    subst hi
    simp [loadLoop, coordsOf, ← hlen]
  | k + 1, i, data, hik, hlen => by
    have hi : i < pts.length := by omega
    have hget : pts[i]? = some pts[i] := List.getElem?_eq_getElem hi
    have hdrop : pts.drop i = pts[i] :: pts.drop (i + 1) := List.drop_eq_getElem_cons hi
    have hb : i * 3 + 3 ≤ data.length := by omega
    have ih := loadLoop_spec pts k (i + 1)
      (((data.set (i * 3) pts[i].x).set (i * 3 + 1) pts[i].y).set (i * 3 + 2) pts[i].z)
      (by omega) (by simpa using hlen)
    have e : (i + 1) * 3 = i * 3 + 3 := by ring
    have h0 : i * 3 < data.length := by omega
    have h1 : i * 3 + 1 < data.length := by omega
    have h2 : i * 3 + 2 < data.length := by omega
    rw [e, set3_take _ _ _ _ _ hb] at ih
    have s0 := NdArray2.set_mk pts.length data i 0 pts[i].x hi (by omega) (by omega)
    have s1 := NdArray2.set_mk pts.length (data.set (i * 3) pts[i].x) i 1 pts[i].y hi
      (by omega) (by simpa using h1)
    have s2 := NdArray2.set_mk pts.length
      ((data.set (i * 3) pts[i].x).set (i * 3 + 1) pts[i].y) i 2 pts[i].z hi
      (by omega) (by simpa using h2)
    simp only [Nat.add_zero] at s0
    rw [loadLoop, hget]
    simp only [s0, s1, s2]
    rw [ih, hdrop]
    simp [coordsOf]

theorem load_eq_of_nonneg {F FS : Type} (env : PlyEnv F FS) (fs : FS) (path : String)
    (h : 0 ≤ (env.loadPLYFile fs path).1) :
    load_pointcloud_cpp env fs path =
      .returned { shape0 := (env.loadPLYFile fs path).2.points.length, shape1 := 3,
                  data := coordsOf (env.loadPLYFile fs path).2.points } := by
  have hneg : ¬ (env.loadPLYFile fs path).1 < 0 := by omega
  have hs := loadLoop_spec (env.loadPLYFile fs path).2.points
    (env.loadPLYFile fs path).2.points.length 0
    ((List.range ((env.loadPLYFile fs path).2.points.length * 3)).map env.uninit)
    (by omega) (by simp)
  simp only [load_pointcloud_cpp, hneg, if_false, hs]
  simp

/-! ## Lemmas on the writer -/

theorem NdArray2.get_mk {F : Type} (n : Nat) (data : List F) (i j : Nat)
    (hi : i < n) (hj : j < 3) :
    NdArray2.get ⟨n, 3, data⟩ i j = data[i * 3 + j]? := by
  simp [NdArray2.get, hi, hj]

theorem take_set_succ {α : Type} (a : α) :
    ∀ (i : Nat) (l : List α), i < l.length → (l.set i a).take (i + 1) = l.take i ++ [a]
  | 0, l, h => by
    match l, h with
    | b :: rest, _ => simp
  | i + 1, l, h => by
    match l, h with
    | b :: rest, h =>
      have h2 : i < rest.length := by simpa using h
      simpa using take_set_succ a i rest h2

theorem saveLoop_spec {F : Type} (n : Nat) (data : List F) (labels : List Int)
    (hlen : data.length = n * 3) (hlab : n ≤ labels.length) :
    ∀ (k i : Nat) (pts : List (PointXYZRGB F)) (reads : List Nat), i + k = n → pts.length = n →
      saveLoop ⟨n, 3, data⟩ labels k i pts reads =
        (reads ++ List.range' i k,
          .ok (pts.take i ++ colouredRows (data.drop (i * 3)) (labels.drop i)))
  | 0, i, pts, reads, hik, hp => by
    have hi : i = n := by omega
    subst hi
    have hd : data.drop (i * 3) = [] := by simp [hlen]
    have ht : pts.take i = pts := by simp [hp]
    rw [saveLoop, hd, ht]
    simp [colouredRows]
  | k + 1, i, pts, reads, hik, hp => by
    have hi : i < n := by omega
    have h0 : i * 3 < data.length := by omega
    have h1 : i * 3 + 1 < data.length := by omega
    have h2 : i * 3 + 2 < data.length := by omega
    have hl : i < labels.length := by omega
    have g0 := NdArray2.get_mk n data i 0 hi (by omega)
    have g1 := NdArray2.get_mk n data i 1 hi (by omega)
    have g2 := NdArray2.get_mk n data i 2 hi (by omega)
    simp only [Nat.add_zero] at g0
    rw [List.getElem?_eq_getElem h0] at g0
    rw [List.getElem?_eq_getElem h1] at g1
    rw [List.getElem?_eq_getElem h2] at g2
    have gl : labels[i]? = some labels[i] := List.getElem?_eq_getElem hl
    have e : (i + 1) * 3 = i * 3 + 3 := by ring
    have hd : data.drop (i * 3) =
        data[i * 3] :: data[i * 3 + 1] :: data[i * 3 + 2] :: data.drop ((i + 1) * 3) := by
      rw [e, List.drop_eq_getElem_cons h0, List.drop_eq_getElem_cons h1,
        List.drop_eq_getElem_cons h2]
    have hdl : labels.drop i = labels[i] :: labels.drop (i + 1) := List.drop_eq_getElem_cons hl
    have ih := saveLoop_spec n data labels hlen hlab k (i + 1)
      (pts.set i (mkPoint data[i * 3] data[i * 3 + 1] data[i * 3 + 2] labels[i]))
      (reads ++ [i]) (by omega) (by simpa using hp)
    rw [take_set_succ _ i pts (by omega)] at ih
    rw [saveLoop]
    simp only [g0, g1, g2, gl]
    rw [ih, hd, hdl]
    simp [colouredRows, List.range'_succ]

theorem save_run_eq {F FS : Type} [Zero F] (env : PlyEnv F FS) (fs : FS) (path : String)
    (xyz : NdArray2 F) (labels : List Int) (hwf : xyz.WellFormed) (h3 : xyz.shape1 = 3)
    (hlab : xyz.shape0 ≤ labels.length) :
    save_colored_ply_cpp env fs path xyz labels =
      { labelReads := List.range xyz.shape0,
        writerCalls := [(path, ⟨colouredRows xyz.data labels, xyz.shape0 % 2 ^ 32, 1, false⟩)],
        writerCodes := [(env.savePLYFileASCII fs path
          ⟨colouredRows xyz.data labels, xyz.shape0 % 2 ^ 32, 1, false⟩).1],
        fs := (env.savePLYFileASCII fs path
          ⟨colouredRows xyz.data labels, xyz.shape0 % 2 ^ 32, 1, false⟩).2,
        outcome := .returned () } := by
  obtain ⟨n, m, data⟩ := xyz
  simp only at h3
  subst h3
  have hlen : data.length = n * 3 := hwf
  have hs := saveLoop_spec n data labels hlen hlab n 0 (List.replicate n defaultPoint) []
    (by omega) (by simp)
  simp only [save_colored_ply_cpp, hs]
  simp [List.range_eq_range']

theorem colouredRows_length {F : Type} :
    ∀ (n : Nat) (data : List F) (labels : List Int), data.length = n * 3 → n ≤ labels.length →
      (colouredRows data labels).length = n
  | 0, data, labels, hd, _ => by
    have : data = [] := by simpa using hd
    subst this
    simp [colouredRows]
  | n + 1, data, labels, hd, hl => by
    match data, labels, hd, hl with
    | x :: y :: z :: rest, c :: cs, hd, hl =>
      have hd2 : rest.length = n * 3 := by simp at hd; omega
      have hl2 : n ≤ cs.length := by simpa using hl
      simp [colouredRows, colouredRows_length n rest cs hd2 hl2]
    | [], _, hd, _ => simp at hd
    | [_], _, hd, _ => simp at hd; omega
    | [_, _], _, hd, _ => simp at hd; omega
    | _ :: _ :: _ :: _, [], _, hl => simp at hl

theorem colouredRows_getElem {F : Type} :
    ∀ (i : Nat) (data : List F) (labels : List Int) (x y z : F) (c : Int),
      data[i * 3]? = some x → data[i * 3 + 1]? = some y → data[i * 3 + 2]? = some z →
      labels[i]? = some c → (colouredRows data labels)[i]? = some (mkPoint x y z c)
  | 0, data, labels, x, y, z, c, hx, hy, hz, hc => by
    match data, labels with
    | a :: b :: d :: rest, l :: ls =>
      simp at hx hy hz hc
      subst hx hy hz hc
      simp [colouredRows]
    | [], _ => simp at hx
    | [_], _ => simp at hy
    | [_, _], _ => simp at hz
    | _ :: _ :: _ :: _, [] => simp at hc
  | i + 1, data, labels, x, y, z, c, hx, hy, hz, hc => by
    have e : (i + 1) * 3 = i * 3 + 3 := by ring
    rw [e] at hx hy hz
    match data, labels with
    | a :: b :: d :: rest, l :: ls =>
      have hx2 : rest[i * 3]? = some x := by simpa using hx
      have hy2 : rest[i * 3 + 1]? = some y := by
        have : i * 3 + 3 + 1 = (i * 3 + 1) + 3 := by ring
        rw [this] at hy
        simpa using hy
      have hz2 : rest[i * 3 + 2]? = some z := by
        have : i * 3 + 3 + 2 = (i * 3 + 2) + 3 := by ring
        rw [this] at hz
        simpa using hz
      have hc2 : ls[i]? = some c := by simpa using hc
      simpa [colouredRows] using colouredRows_getElem i rest ls x y z c hx2 hy2 hz2 hc2
    | [], _ => simp at hx
    | [_], _ => simp at hx
    | [_, _], _ => simp at hx
    | _ :: _ :: _ :: _, [] => simp at hc

theorem colouredRows_take {F : Type} :
    ∀ (n : Nat) (data : List F) (labels : List Int), data.length = n * 3 →
      colouredRows data labels = colouredRows data (labels.take n)
  | 0, data, labels, hd => by
    have : data = [] := by simpa using hd
    subst this
    simp [colouredRows]
  | n + 1, data, labels, hd => by
    match data, labels, hd with
    | x :: y :: z :: rest, c :: cs, hd =>
      have hd2 : rest.length = n * 3 := by simp at hd; omega
      simp [colouredRows, ← colouredRows_take n rest cs hd2]
    | _ :: _ :: _ :: _, [], _ => simp
    | [], _, hd => simp at hd
    | [_], _, hd => simp at hd; omega
    | [_, _], _, hd => simp at hd; omega

theorem coordsOf_colouredRows {F : Type} :
    ∀ (n : Nat) (data : List F) (labels : List Int), data.length = n * 3 → n ≤ labels.length →
      coordsOf ((colouredRows data labels).map PointXYZRGB.toXYZ) = data
  | 0, data, labels, hd, _ => by
    have : data = [] := by simpa using hd
    subst this
    simp [colouredRows, coordsOf]
  | n + 1, data, labels, hd, hl => by
    match data, labels, hd, hl with
    | x :: y :: z :: rest, c :: cs, hd, hl =>
      have hd2 : rest.length = n * 3 := by simp at hd; omega
      have hl2 : n ≤ cs.length := by simpa using hl
      simp [colouredRows, coordsOf, PointXYZRGB.toXYZ, mkPoint,
        coordsOf_colouredRows n rest cs hd2 hl2]
    | [], _, hd, _ => simp at hd
    | [_], _, hd, _ => simp at hd; omega
    | [_, _], _, hd, _ => simp at hd; omega
    | _ :: _ :: _ :: _, [], _, hl => simp at hl

theorem saveLoop_length {F : Type} (xyz : NdArray2 F) (labels : List Int) :
    ∀ (k i : Nat) (pts : List (PointXYZRGB F)) (reads r : List Nat) (out : List (PointXYZRGB F)),
      saveLoop xyz labels k i pts reads = (r, .ok out) → out.length = pts.length
  | 0, i, pts, reads, r, out, h => by
    simp [saveLoop] at h
    rw [← h.2]
  | k + 1, i, pts, reads, r, out, h => by
    rw [saveLoop] at h
    split at h
    · simp at h
    · split at h
      · simp at h
      · split at h
        · simp at h
        · split at h
          · simp at h
          · have := saveLoop_length xyz labels k (i + 1) _ _ r out h
            simpa using this

/-! ## The colour lookup -/

/-- C1: the label-to-colour lookup of `save_colored_ply_cpp` is defined on every
integer (hence on every 32-bit signed one) and agrees with the table: label 0
gives (128,128,128), label 1 gives (0,0,255), label 2 gives (255,0,0), and
every other integer, in particular every negative one, gives (0,255,0). -/
theorem labelColour_table (cls : Int) :
    labelColour 0 = (128, 128, 128) ∧ labelColour 1 = (0, 0, 255) ∧
      labelColour 2 = (255, 0, 0) ∧
      (cls ≠ 0 → cls ≠ 1 → cls ≠ 2 → labelColour cls = (0, 255, 0)) ∧
      (cls < 0 → labelColour cls = (0, 255, 0)) := by
  refine ⟨by decide, by decide, by decide, ?_, ?_⟩
  · intro h0 h1 h2
    simp [labelColour, h0, h1, h2]
  · intro h
    have h0 : cls ≠ 0 := by omega
    have h1 : cls ≠ 1 := by omega
    have h2 : cls ≠ 2 := by omega
    simp [labelColour, h0, h1, h2]

/-- Witness of C1 at the labels 7 and -2147483648. -/
theorem labelColour_table_witness :
    ((7 : Int) ≠ 0 ∧ (7 : Int) ≠ 1 ∧ (7 : Int) ≠ 2 ∧ labelColour 7 = (0, 255, 0)) ∧
      ((-2147483648 : Int) < 0 ∧ labelColour (-2147483648) = (0, 255, 0)) :=
  ⟨⟨by decide, by decide, by decide,
      (labelColour_table 7).2.2.2.1 (by decide) (by decide) (by decide)⟩,
    ⟨by decide, (labelColour_table (-2147483648)).2.2.2.2 (by decide)⟩⟩

/-! ## The writer: points and colours -/

/-- C2: for an `N x 3` position array and exactly `N` labels, the writer is
called once, with a cloud of exactly `N` points, and point `i` carries the
coordinates of row `i` and the colour of `labels[i]`; for the positions
`[[0,0,0],[1,1,1]]` and the labels `[1,2]` the points are (0,0,0) in blue and
(1,1,1) in red. -/
theorem save_points_in_order {F FS : Type} [Zero F] (env : PlyEnv F FS) (fs : FS)
    (path : String) (xyz : NdArray2 F) (labels : List Int) (hwf : xyz.WellFormed)
    (h3 : xyz.shape1 = 3) (hlen : labels.length = xyz.shape0) :
    (∃ cloud, (save_colored_ply_cpp env fs path xyz labels).writerCalls = [(path, cloud)] ∧
      cloud.points.length = xyz.shape0 ∧
      ∀ i, i < xyz.shape0 → ∃ x y z cls,
        xyz.get i 0 = some x ∧ xyz.get i 1 = some y ∧ xyz.get i 2 = some z ∧
        labels[i]? = some cls ∧
        cloud.points[i]? =
          some ⟨x, y, z, (labelColour cls).1, (labelColour cls).2.1, (labelColour cls).2.2⟩) ∧
    (save_colored_ply_cpp memEnv [] "out.ply" xyz2 [1, 2]).writerCalls.map
        (fun c => c.2.points) = [[⟨0, 0, 0, 0, 0, 255⟩, ⟨1, 1, 1, 255, 0, 0⟩]] := by
  refine ⟨?_, by decide⟩
  rw [save_run_eq env fs path xyz labels hwf h3 (by omega)]
  obtain ⟨n, m, data⟩ := xyz
  simp only at h3 hlen
  subst h3
  have hd : data.length = n * 3 := hwf
  refine ⟨_, rfl, colouredRows_length n data labels hd (by omega), ?_⟩
  intro i hi
  simp only at hi
  have h0 : i * 3 < data.length := by omega
  have h1 : i * 3 + 1 < data.length := by omega
  have h2 : i * 3 + 2 < data.length := by omega
  have hl : i < labels.length := by omega
  refine ⟨data[i * 3], data[i * 3 + 1], data[i * 3 + 2], labels[i], ?_, ?_, ?_, ?_, ?_⟩
  · simp [NdArray2.get, hi, h0]
  · simp [NdArray2.get, hi, h1]
  · simp [NdArray2.get, hi, h2]
  · exact List.getElem?_eq_getElem hl
  · exact colouredRows_getElem i data labels _ _ _ _ (List.getElem?_eq_getElem h0)
      (List.getElem?_eq_getElem h1) (List.getElem?_eq_getElem h2) (List.getElem?_eq_getElem hl)

/-- Witness of C2 at three positions with the labels 0, 5, -1. -/
theorem save_points_in_order_witness :
    xyz3.WellFormed ∧ xyz3.shape1 = 3 ∧ [(0 : Int), 5, -1].length = xyz3.shape0 ∧
      ∃ cloud, (save_colored_ply_cpp memEnv [] "w.ply" xyz3 [0, 5, -1]).writerCalls
          = [("w.ply", cloud)] ∧ cloud.points.length = xyz3.shape0 :=
  ⟨by decide, rfl, rfl,
    match (save_points_in_order memEnv [] "w.ply" xyz3 [0, 5, -1]
      (by decide) rfl rfl).1 with
    | ⟨cloud, h1, h2, _⟩ => ⟨cloud, h1, h2⟩⟩

/-! ## The loader -/

/-- C4: `load_pointcloud_cpp` fails exactly when the parser returns a negative
code: then the result is the error "Failed to load PLY: " followed by the path
and no array; for a code that is zero or positive the result is an array and no
error. -/
theorem load_fails_iff_parser_fails {F FS : Type} (env : PlyEnv F FS) (fs : FS)
    (path : String) :
    ((env.loadPLYFile fs path).1 < 0 →
      load_pointcloud_cpp env fs path = .threw ("Failed to load PLY: " ++ path)) ∧
    (0 ≤ (env.loadPLYFile fs path).1 →
      ∃ arr, load_pointcloud_cpp env fs path = .returned arr) := by
  constructor
  · intro h
    simp [load_pointcloud_cpp, h]
  · intro h
    exact ⟨_, load_eq_of_nonneg env fs path h⟩

/-- Witness of C4: a path that is absent from the in-memory file system, and one
that is present. -/
theorem load_fails_iff_parser_fails_witness :
    ((memEnv.loadPLYFile [] "missing.ply").1 < 0 ∧
      load_pointcloud_cpp memEnv [] "missing.ply" = .threw "Failed to load PLY: missing.ply") ∧
    (0 ≤ (memEnv.loadPLYFile [("a.ply", ⟨[⟨1, 2, 3, 0, 0, 0⟩], 1, 1, false⟩)] "a.ply").1 ∧
      ∃ arr, load_pointcloud_cpp memEnv [("a.ply", ⟨[⟨1, 2, 3, 0, 0, 0⟩], 1, 1, false⟩)] "a.ply"
        = .returned arr) :=
  ⟨⟨by decide, (load_fails_iff_parser_fails memEnv [] "missing.ply").1 (by decide)⟩,
    ⟨by decide, (load_fails_iff_parser_fails memEnv
      [("a.ply", ⟨[⟨1, 2, 3, 0, 0, 0⟩], 1, 1, false⟩)] "a.ply").2 (by decide)⟩⟩

/-- C5: when the parser succeeds with a cloud of `N` points, the result is an
array of shape `N x 3` (holding exactly `N * 3` numbers) whose row `i` is
`(x, y, z)` of point `i`, for every `i < N`. -/
theorem load_rows_are_points {F FS : Type} (env : PlyEnv F FS) (fs : FS) (path : String)
    (h : 0 ≤ (env.loadPLYFile fs path).1) :
    ∃ arr, load_pointcloud_cpp env fs path = .returned arr ∧
      arr.shape0 = (env.loadPLYFile fs path).2.points.length ∧ arr.shape1 = 3 ∧
      arr.data.length = (env.loadPLYFile fs path).2.points.length * 3 ∧
      ∀ (i : Nat) (hi : i < (env.loadPLYFile fs path).2.points.length),
        arr.get i 0 = some ((env.loadPLYFile fs path).2.points[i]).x ∧
        arr.get i 1 = some ((env.loadPLYFile fs path).2.points[i]).y ∧
        arr.get i 2 = some ((env.loadPLYFile fs path).2.points[i]).z := by
  refine ⟨_, load_eq_of_nonneg env fs path h, rfl, rfl, coordsOf_length _, ?_⟩
  intro i hi
  have hg := coordsOf_getElem (env.loadPLYFile fs path).2.points i _
    (List.getElem?_eq_getElem hi)
  simp only [NdArray2.get, hi, true_and, Nat.add_zero]
  simpa using hg

/-- Witness of C5: a stored cloud of two points is loaded as a `2 x 3` array. -/
theorem load_rows_are_points_witness :
    0 ≤ (memEnv.loadPLYFile
        [("a.ply", ⟨[⟨1, 2, 3, 0, 0, 0⟩, ⟨4, 5, 6, 9, 9, 9⟩], 2, 1, false⟩)] "a.ply").1 ∧
      ∃ arr, load_pointcloud_cpp memEnv
          [("a.ply", ⟨[⟨1, 2, 3, 0, 0, 0⟩, ⟨4, 5, 6, 9, 9, 9⟩], 2, 1, false⟩)] "a.ply"
          = .returned arr ∧ arr.shape1 = 3 :=
  ⟨by decide,
    match load_rows_are_points memEnv
      [("a.ply", ⟨[⟨1, 2, 3, 0, 0, 0⟩, ⟨4, 5, 6, 9, 9, 9⟩], 2, 1, false⟩)] "a.ply"
      (by decide) with
    | ⟨arr, h1, _, h3, _⟩ => ⟨arr, h1, h3⟩⟩

/-! ## The writer: outcomes -/

theorem save_never_throws {F FS : Type} [Zero F] (env : PlyEnv F FS) (fs : FS) (path : String)
    (xyz : NdArray2 F) (labels : List Int) (msg : String) :
    (save_colored_ply_cpp env fs path xyz labels).outcome ≠ .threw msg := by
  unfold save_colored_ply_cpp
  rcases h : saveLoop xyz labels xyz.shape0 0 (List.replicate xyz.shape0 defaultPoint) []
    with ⟨reads, f | pts⟩ <;> simp [h]

theorem save_calls_header {F FS : Type} [Zero F] (env : PlyEnv F FS) (fs : FS) (path : String)
    (xyz : NdArray2 F) (labels : List Int) (call : String × PointCloud (PointXYZRGB F))
    (hc : call ∈ (save_colored_ply_cpp env fs path xyz labels).writerCalls) :
    call.2.points.length = xyz.shape0 ∧ call.2.width = xyz.shape0 % 2 ^ 32 ∧
      call.2.height = 1 ∧ call.2.is_dense = false := by
  unfold save_colored_ply_cpp at hc
  rcases h : saveLoop xyz labels xyz.shape0 0 (List.replicate xyz.shape0 defaultPoint) []
    with ⟨reads, f | pts⟩
  · simp [h] at hc
  · have hl := saveLoop_length xyz labels _ _ _ _ _ _ h
    simp only [h, List.mem_singleton] at hc
    subst hc
    simpa using hl

theorem memEnv_faithful : memEnv.Faithful := by
  intro fs path cloud
  simp [memEnv, memSave, memLoad, List.lookup, PointXYZRGB.toXYZ]

/-- C3, as the code has it: `save_colored_ply_cpp` performs no length check and
never raises an error of its own, whatever the two lengths are; when there are
more labels than position rows it reads the labels at the indices `0 .. N-1`
only, all inside the label array, calls the writer exactly once and returns
normally. -/
theorem save_has_no_length_check {F FS : Type} [Zero F] (env : PlyEnv F FS) (fs : FS)
    (path : String) (xyz : NdArray2 F) (labels : List Int) :
    (∀ msg, (save_colored_ply_cpp env fs path xyz labels).outcome ≠ .threw msg) ∧
    (xyz.WellFormed → xyz.shape1 = 3 → xyz.shape0 < labels.length →
      (save_colored_ply_cpp env fs path xyz labels).outcome = .returned () ∧
      (save_colored_ply_cpp env fs path xyz labels).labelReads = List.range xyz.shape0 ∧
      (∀ i ∈ (save_colored_ply_cpp env fs path xyz labels).labelReads, i < labels.length) ∧
      (save_colored_ply_cpp env fs path xyz labels).writerCalls.length = 1) := by
  refine ⟨fun msg => save_never_throws env fs path xyz labels msg, ?_⟩
  intro hwf h3 hlt
  rw [save_run_eq env fs path xyz labels hwf h3 (by omega)]
  refine ⟨rfl, rfl, ?_, rfl⟩
  intro i hi
  have : i < xyz.shape0 := by simpa using hi
  omega

/-- Witness of C3 (as the code has it): two positions, three labels. -/
theorem save_has_no_length_check_witness :
    xyz2.WellFormed ∧ xyz2.shape1 = 3 ∧ xyz2.shape0 < [(1 : Int), 2, 0].length ∧
      (save_colored_ply_cpp memEnv [] "m.ply" xyz2 [1, 2, 0]).outcome = .returned () ∧
      (save_colored_ply_cpp memEnv [] "m.ply" xyz2 [1, 2, 0]).labelReads = List.range xyz2.shape0 :=
  ⟨by decide, rfl, by decide,
    ((save_has_no_length_check memEnv [] "m.ply" xyz2 [1, 2, 0]).2
      (by decide) rfl (by decide)).1,
    ((save_has_no_length_check memEnv [] "m.ply" xyz2 [1, 2, 0]).2
      (by decide) rfl (by decide)).2.1⟩

/-- C3 fails as stated: with two positions and three labels the lengths differ,
yet the run returns normally and calls the writer once; with three positions
and two labels the label buffer is read at index 2, outside the two labels,
and the outcome is that out-of-bounds access, not an error. -/
theorem length_mismatch_not_rejected :
    ([(1 : Int), 2, 0].length ≠ xyz2.shape0 ∧
      (save_colored_ply_cpp memEnv [] "m.ply" xyz2 [1, 2, 0]).outcome = .returned () ∧
      (save_colored_ply_cpp memEnv [] "m.ply" xyz2 [1, 2, 0]).writerCalls.length = 1) ∧
    ([(1 : Int), 2].length ≠ xyz3.shape0 ∧
      (save_colored_ply_cpp memEnv [] "m.ply" xyz3 [1, 2]).labelReads = [0, 1, 2] ∧
      (save_colored_ply_cpp memEnv [] "m.ply" xyz3 [1, 2]).outcome
        = .undefined (.labelOutOfBounds 2)) := by
  exact ⟨⟨by decide, by decide, by decide⟩, by decide, by decide, by decide⟩

/-- C7, on the code: whenever the label reads stay in bounds, the run returns
normally even though the writer reported a negative code; the code is recorded
and dropped. -/
theorem save_drops_writer_code {F FS : Type} [Zero F] (env : PlyEnv F FS) (fs : FS)
    (path : String) (xyz : NdArray2 F) (labels : List Int) (hwf : xyz.WellFormed)
    (h3 : xyz.shape1 = 3) (hlab : xyz.shape0 ≤ labels.length)
    (hfail : ∀ fs1 p c, (env.savePLYFileASCII fs1 p c).1 < 0) :
    (save_colored_ply_cpp env fs path xyz labels).outcome = .returned () ∧
      ∃ rc, (save_colored_ply_cpp env fs path xyz labels).writerCodes = [rc] ∧ rc < 0 := by
  rw [save_run_eq env fs path xyz labels hwf h3 hlab]
  exact ⟨rfl, _, rfl, hfail _ _ _⟩

/-- Witness of C7 (on the code): one point, one label, a writer that returns -1. -/
theorem save_drops_writer_code_witness :
    (∀ fs1 p c, (failEnv.savePLYFileASCII fs1 p c).1 < 0) ∧
      (save_colored_ply_cpp failEnv [] "/readonly/out.ply" ⟨1, 3, [0, 0, 0]⟩ [0]).outcome
        = .returned () ∧
      (save_colored_ply_cpp failEnv [] "/readonly/out.ply" ⟨1, 3, [0, 0, 0]⟩ [0]).writerCodes
        = [-1] :=
  ⟨fun _ _ _ => show (-1 : Int) < 0 by decide,
    (save_drops_writer_code failEnv [] "/readonly/out.ply" ⟨1, 3, [0, 0, 0]⟩ [0]
      (by decide) rfl (by decide) (fun _ _ _ => show (-1 : Int) < 0 by decide)).1,
    by decide⟩

/-! ## Round trip -/

/-- C6: with a faithful reader and writer, saving an `N x 3` position array
with any `N` labels and loading the written path returns the same array: the
same `N` rows in the same order; the labels play no part in the result. -/
theorem save_then_load_roundtrip {F FS : Type} [Zero F] (env : PlyEnv F FS)
    (hf : env.Faithful) (fs : FS) (path : String) (xyz : NdArray2 F) (labels : List Int)
    (hwf : xyz.WellFormed) (h3 : xyz.shape1 = 3) (hlen : labels.length = xyz.shape0) :
    (save_colored_ply_cpp env fs path xyz labels).outcome = .returned () ∧
      load_pointcloud_cpp env (save_colored_ply_cpp env fs path xyz labels).fs path
        = .returned xyz := by
  rw [save_run_eq env fs path xyz labels hwf h3 (by omega)]
  refine ⟨rfl, ?_⟩
  simp only
  have hfa := hf fs path ⟨colouredRows xyz.data labels, xyz.shape0 % 2 ^ 32, 1, false⟩
  rw [load_eq_of_nonneg env _ path hfa.1, hfa.2]
  obtain ⟨n, m, data⟩ := xyz
  simp only at h3 hlen
  subst h3
  have hd : data.length = n * 3 := hwf
  simp only [List.length_map]
  rw [colouredRows_length n data labels hd (by omega),
    coordsOf_colouredRows n data labels hd (by omega)]

/-- Witness of C6: the in-memory file system is faithful, and two saved
positions come back. -/
theorem save_then_load_roundtrip_witness :
    memEnv.Faithful ∧ xyz2.WellFormed ∧ xyz2.shape1 = 3 ∧ [(1 : Int), 2].length = xyz2.shape0 ∧
      load_pointcloud_cpp memEnv (save_colored_ply_cpp memEnv [] "rt.ply" xyz2 [1, 2]).fs "rt.ply"
        = .returned xyz2 :=
  ⟨memEnv_faithful, by decide, rfl, rfl,
    (save_then_load_roundtrip memEnv memEnv_faithful [] "rt.ply" xyz2 [1, 2]
      (by decide) rfl rfl).2⟩

/-! ## Empty input -/

/-- C8: with a position array of 0 rows and an empty label array the writer
receives a cloud without points, of width 0 and height 1, and no label is
read; and when the parser succeeds with a cloud of 0 points the loader returns
an array of shape `0 x 3`. -/
theorem empty_input {F FS : Type} [Zero F] (env : PlyEnv F FS) (fs : FS) (path : String) :
    (∀ xyz : NdArray2 F, xyz.shape0 = 0 →
      (save_colored_ply_cpp env fs path xyz []).labelReads = [] ∧
      (save_colored_ply_cpp env fs path xyz []).writerCalls
        = [(path, { points := [], width := 0, height := 1, is_dense := false })] ∧
      (save_colored_ply_cpp env fs path xyz []).outcome = .returned ()) ∧
    (0 ≤ (env.loadPLYFile fs path).1 → (env.loadPLYFile fs path).2.points = [] →
      load_pointcloud_cpp env fs path = .returned { shape0 := 0, shape1 := 3, data := [] }) := by
  constructor
  · intro xyz h0
    simp [save_colored_ply_cpp, h0, saveLoop]
  · intro h hp
    rw [load_eq_of_nonneg env fs path h, hp]
    simp [coordsOf]

/-- Witness of C8: an empty array is saved and the written file is loaded. -/
theorem empty_input_witness :
    ((⟨0, 3, []⟩ : NdArray2 Int).shape0 = 0 ∧
      (save_colored_ply_cpp memEnv [] "e.ply" ⟨0, 3, []⟩ []).labelReads = []) ∧
    (0 ≤ (memEnv.loadPLYFile [("e.ply", ⟨[], 0, 1, false⟩)] "e.ply").1 ∧
      (memEnv.loadPLYFile [("e.ply", ⟨[], 0, 1, false⟩)] "e.ply").2.points = [] ∧
      load_pointcloud_cpp memEnv [("e.ply", ⟨[], 0, 1, false⟩)] "e.ply"
        = .returned { shape0 := 0, shape1 := 3, data := [] }) :=
  ⟨⟨rfl, ((empty_input memEnv [] "e.ply").1 ⟨0, 3, []⟩ rfl).1⟩,
    ⟨by decide, by decide,
      (empty_input memEnv [("e.ply", ⟨[], 0, 1, false⟩)] "e.ply").2 (by decide) (by decide)⟩⟩

/-! ## Surplus labels -/

theorem take_eq_of_agree (n : Nat) (l1 l2 : List Int)
    (hag : ∀ i, i < n → l1[i]? = l2[i]?) : l1.take n = l2.take n := by
  apply List.ext_getElem?
  intro i
  by_cases hi : i < n
  · simp [List.getElem?_take, hi, hag i hi]
  · simp [List.getElem?_take, hi]

/-- C9: surplus labels are ignored without an error.  For two label arrays of
length at least `N` that agree on their first `N` entries, both runs return
normally and hand the writer the same cloud, which has `N` points (the number
of position rows); the entries from index `N` on have no influence. -/
theorem surplus_labels_ignored {F FS : Type} [Zero F] (env : PlyEnv F FS) (fs : FS)
    (path : String) (xyz : NdArray2 F) (l1 l2 : List Int) (hwf : xyz.WellFormed)
    (h3 : xyz.shape1 = 3) (h1 : xyz.shape0 ≤ l1.length) (h2 : xyz.shape0 ≤ l2.length)
    (hag : ∀ i, i < xyz.shape0 → l1[i]? = l2[i]?) :
    (save_colored_ply_cpp env fs path xyz l1).outcome = .returned () ∧
      (save_colored_ply_cpp env fs path xyz l2).outcome = .returned () ∧
      (save_colored_ply_cpp env fs path xyz l1).writerCalls
        = (save_colored_ply_cpp env fs path xyz l2).writerCalls ∧
      ∃ cloud, (save_colored_ply_cpp env fs path xyz l1).writerCalls = [(path, cloud)] ∧
        cloud.points.length = xyz.shape0 := by
  rw [save_run_eq env fs path xyz l1 hwf h3 h1, save_run_eq env fs path xyz l2 hwf h3 h2]
  have h3n : xyz.data.length = xyz.shape0 * 3 := by
    have := hwf
    rw [NdArray2.WellFormed, h3] at this
    exact this
  have hrows : colouredRows xyz.data l1 = colouredRows xyz.data l2 := by
    rw [colouredRows_take xyz.shape0 xyz.data l1 h3n, colouredRows_take xyz.shape0 xyz.data l2 h3n,
      take_eq_of_agree xyz.shape0 l1 l2 hag]
  refine ⟨rfl, rfl, ?_, _, rfl, colouredRows_length xyz.shape0 xyz.data l1 h3n h1⟩
  simp only [hrows]

/-- Witness of C9: two positions, label arrays `[1,2,9]` and `[1,2,0,4]`. -/
theorem surplus_labels_ignored_witness :
    xyz2.WellFormed ∧ xyz2.shape1 = 3 ∧ xyz2.shape0 ≤ [(1 : Int), 2, 9].length ∧
      xyz2.shape0 ≤ [(1 : Int), 2, 0, 4].length ∧
      (∀ i, i < xyz2.shape0 → [(1 : Int), 2, 9][i]? = [(1 : Int), 2, 0, 4][i]?) ∧
      (save_colored_ply_cpp memEnv [] "s.ply" xyz2 [1, 2, 9]).writerCalls
        = (save_colored_ply_cpp memEnv [] "s.ply" xyz2 [1, 2, 0, 4]).writerCalls :=
  have hag : ∀ i, i < xyz2.shape0 → [(1 : Int), 2, 9][i]? = [(1 : Int), 2, 0, 4][i]? := by
    intro i hi
    have hi2 : i < 2 := hi
    interval_cases i <;> rfl
  ⟨by decide, rfl, by decide, by decide, hag,
    (surplus_labels_ignored memEnv [] "s.ply" xyz2 [1, 2, 9] [1, 2, 0, 4]
      (by decide) rfl (by decide) (by decide) hag).2.2.1⟩

/-! ## The header of the written cloud -/

theorem save_zeros_calls {F FS : Type} [Zero F] (env : PlyEnv F FS) (fs : FS) (path : String)
    (n : Nat) :
    (save_colored_ply_cpp env fs path ⟨n, 3, List.replicate (n * 3) 0⟩
        (List.replicate n 0)).writerCalls =
      [(path, ⟨colouredRows (List.replicate (n * 3) (0 : F)) (List.replicate n 0),
        n % 2 ^ 32, 1, false⟩)] := by
  rw [save_run_eq env fs path ⟨n, 3, List.replicate (n * 3) 0⟩ (List.replicate n 0)
    (List.length_replicate _ _) rfl (by simp)]

theorem zeros_rows_length {F : Type} [Zero F] (n : Nat) :
    (colouredRows (List.replicate (n * 3) (0 : F)) (List.replicate n 0)).length = n :=
  colouredRows_length n _ _ (List.length_replicate _ _) (by simp)

/-- C10, as the code has it: every cloud handed to the writer has as many
points as there are position rows `N`, height 1, `is_dense = false` whatever
the coordinates are, and width `N mod 2 ^ 32` (the header field has 32 bits);
so for `N < 2 ^ 32` the width is `N` and width times height is the number of
points.  A cloud is handed over whenever the label reads stay in bounds. -/
theorem cloud_header_fields {F FS : Type} [Zero F] (env : PlyEnv F FS) (fs : FS)
    (path : String) (xyz : NdArray2 F) (labels : List Int) :
    (∀ call ∈ (save_colored_ply_cpp env fs path xyz labels).writerCalls,
      call.2.points.length = xyz.shape0 ∧ call.2.height = 1 ∧ call.2.is_dense = false ∧
      call.2.width = xyz.shape0 % 2 ^ 32 ∧
      (xyz.shape0 < 2 ^ 32 →
        call.2.width = xyz.shape0 ∧ call.2.width * call.2.height = call.2.points.length)) ∧
    (xyz.WellFormed → xyz.shape1 = 3 → xyz.shape0 ≤ labels.length →
      (save_colored_ply_cpp env fs path xyz labels).writerCalls.length = 1) := by
  constructor
  · intro call hc
    obtain ⟨hp, hw, hh, hd⟩ := save_calls_header env fs path xyz labels call hc
    refine ⟨hp, hh, hd, hw, ?_⟩
    intro hlt
    rw [hw, hh, hp, Nat.mod_eq_of_lt hlt]
    simp
  · intro hwf h3 hlab
    rw [save_run_eq env fs path xyz labels hwf h3 hlab]
    rfl

/-- Witness of C10 (as the code has it): three positions, three labels. -/
theorem cloud_header_fields_witness :
    xyz3.WellFormed ∧ xyz3.shape1 = 3 ∧ xyz3.shape0 ≤ [(0 : Int), 1, 2].length ∧
      (save_colored_ply_cpp memEnv [] "h.ply" xyz3 [0, 1, 2]).writerCalls.length = 1 ∧
      (xyz3.shape0 < 2 ^ 32 ∧
        ∀ call ∈ (save_colored_ply_cpp memEnv [] "h.ply" xyz3 [0, 1, 2]).writerCalls,
          call.2.width = xyz3.shape0 ∧ call.2.width * call.2.height = call.2.points.length) :=
  ⟨by decide, rfl, by decide,
    (cloud_header_fields memEnv [] "h.ply" xyz3 [0, 1, 2]).2 (by decide) rfl (by decide),
    by decide,
    fun call hc =>
      ((cloud_header_fields memEnv [] "h.ply" xyz3 [0, 1, 2]).1 call hc).2.2.2.2 (by decide)⟩

/-- C10 fails as stated: for a position array of `2 ^ 32` rows (and as many
labels) the cloud handed to the writer has `2 ^ 32` points but width 0, so the
width is not the number of rows and width times height is not the number of
points. -/
theorem width_wraps_at_two_pow_32 :
    xyzHuge.WellFormed ∧ xyzHuge.shape1 = 3 ∧ labelsHuge.length = xyzHuge.shape0 ∧
      ∃ cloud, (save_colored_ply_cpp memEnv [] "huge.ply" xyzHuge labelsHuge).writerCalls
          = [("huge.ply", cloud)] ∧
        cloud.points.length = 2 ^ 32 ∧ cloud.width = 0 ∧ cloud.height = 1 ∧
        cloud.width ≠ xyzHuge.shape0 ∧ cloud.width * cloud.height ≠ cloud.points.length := by
  refine ⟨List.length_replicate _ _, rfl, List.length_replicate _ _, _,
    save_zeros_calls memEnv [] "huge.ply" (2 ^ 32), zeros_rows_length (2 ^ 32),
    Nat.mod_self _, rfl, ?_, ?_⟩
  · show 2 ^ 32 % 2 ^ 32 ≠ 2 ^ 32
    norm_num
  · show 2 ^ 32 % 2 ^ 32 * 1 ≠ _
    rw [zeros_rows_length (2 ^ 32)]
    norm_num

end PcBackend
